import Mathlib

/-!
Verification of the expression-restricted template renderer of
`src/telegrambot/presentation/telegram/dialogs/widgets/i18n.py`
(class `I18NFormatGetter`).

The embedding models:
  * Python runtime values (`Value`) as far as the renderer can produce or
    consume them: strings, integers, booleans, `None`, lists, tuples,
    dicts, and opaque objects exposing named attributes.  An opaque
    object also carries the text its `repr`/`str` would produce.
  * the Python `ast` expression nodes the evaluator dispatches on
    (`Node`), including representatives of every rejected kind
    (calls, operators, comparisons, lambdas, comprehensions, starred
    expressions, f-strings, slices);
  * `I18NFormatGetter._eval_node` and its helpers (`eval_node`);
  * `I18NFormatGetter._render_text`, i.e. `re.sub` with the pattern
    r"{([^{}]+)}" driving a replacement callback (`render_text`).

`ast.parse` (the host grammar) is an external library, so the renderer is
parameterised by an abstract parse function; theorems about concrete
templates instantiate it with hand-checked ASTs of the concrete
expression texts.

The translation collaborator `i18n.get(key, **data)` is modelled as a
pure function `Tr`; the renderer additionally returns the list of
arguments of every `tr` invocation it performs, so that "translate is
called exactly once / never" is expressible.  This trace is pure
instrumentation: the string result never depends on it.
-/

mutual
/-- A Python runtime value, as far as the renderer can observe it.
`obj` models an opaque object: `reprStr` is the text `str`/`repr` would
produce for it, `attrs` the attributes `getattr` can reach.  (Methods of
built-in values are outside the modelled value space.) -/
inductive Value where
  | str (s : String)
  | int (n : Int)
  | bool (b : Bool)
  | none
  | list (xs : ValueList)
  | tuple (xs : ValueList)
  | dict (entries : ValuePairs)
  | obj (reprStr : String) (attrs : AttrPairs)

/-- A list of values (kept as a dedicated mutual inductive so that all
recursions over values are structural). -/
inductive ValueList where
  | nil
  | cons (hd : Value) (tl : ValueList)

/-- Dict entries in insertion order, as CPython dicts keep them. -/
inductive ValuePairs where
  | nil
  | cons (key : Value) (val : Value) (tl : ValuePairs)

/-- Attribute table of an opaque object. -/
inductive AttrPairs where
  | nil
  | cons (name : String) (val : Value) (tl : AttrPairs)
end

/-- The constants `ast.Constant` can carry in this model (floats, bytes
and `...` are never exercised by the renderer's callers and are left
out). -/
inductive Const where
  | str (s : String)
  | int (n : Int)
  | bool (b : Bool)
  | none

/-- `ast.Constant.value` as a runtime value. -/
def constVal : Const → Value
  | .str s => .str s
  | .int n => .int n
  | .bool b => .bool b
  | .none => .none

mutual
/-- Python `ast` expression nodes, restricted to the kinds `_eval_node`
dispatches on plus representatives of every kind its `else` branch
rejects.  `subscript`'s slice field is mandatory in the `ast` grammar
(so the source's dead `if sl is None` guard has no counterpart here);
`slice` is `ast.Slice`, which may occur as a subscript's slice. -/
inductive Node where
  | expression (body : Node)
  | constant (c : Const)
  | name (id : String)
  | attributeRef (value : Node) (attr : String)
  | subscript (value : Node) (sl : Node)
  | tuple (elts : NodeList)
  | list (elts : NodeList)
  | dict (keys : OptNodeList) (values : OptNodeList)
  | call (func : Node) (args : NodeList)
  | binOp (left : Node) (op : String) (right : Node)
  | unaryOp (op : String) (operand : Node)
  | boolOp (op : String) (values : NodeList)
  | compare (left : Node) (comparators : NodeList)
  | lambdaNode (body : Node)
  | listComp (elt : Node)
  | starred (value : Node)
  | joinedStr (values : NodeList)
  | slice (lower : OptNode) (upper : OptNode) (step : OptNode)

inductive NodeList where
  | nil
  | cons (hd : Node) (tl : NodeList)

/-- An optional sub-node: entries of `ast.Dict.keys` are `None` for
`**expansion` entries, and the source guards `values` the same way. -/
inductive OptNode where
  | none
  | some (n : Node)

inductive OptNodeList where
  | nil
  | cons (hd : OptNode) (tl : OptNodeList)
end

/-- `node.__class__.__name__` for the modelled `ast` node kinds. -/
def nodeName : Node → String
  | .expression _ => "Expression"
  | .constant _ => "Constant"
  | .name _ => "Name"
  | .attributeRef _ _ => "Attribute"
  | .subscript _ _ => "Subscript"
  | .tuple _ => "Tuple"
  | .list _ => "List"
  | .dict _ _ => "Dict"
  | .call _ _ => "Call"
  | .binOp _ _ _ => "BinOp"
  | .unaryOp _ _ => "UnaryOp"
  | .boolOp _ _ => "BoolOp"
  | .compare _ _ => "Compare"
  | .lambdaNode _ => "Lambda"
  | .listComp _ => "ListComp"
  | .starred _ => "Starred"
  | .joinedStr _ => "JoinedStr"
  | .slice _ _ _ => "Slice"

/-- The render context: the `data` dict handed to `_render_text`
(string keys are unique in a Python dict; lookup finds the first
match). -/
abbrev Ctx := List (String × Value)

/-- Failures of `safe_eval_expr`, mirroring the exceptions the source
raises.  `disallowed` is the rejection `TypeError`: the dispatcher's
`else` branch raises it carrying the node class name
(`"disallowed expression: <name>"`), and `_eval_subscript` raises it for
a slice (`"slices are not allowed"`); the payload here is the offending
construct.  `parseError` is the `SyntaxError` of `ast.parse`. -/
inductive EvalErr where
  | parseError (msg : String)
  | disallowed (construct : String)
  | nameNotFound (id : String)
  | attributeNotFound (attr : String)
  | keyNotFound (key : Value)
  | indexOutOfRange
  | typeError (msg : String)

mutual
/-- Python `==` on the modelled values: numbers compare across
`int`/`bool` (`True == 1`), sequences elementwise, dicts entrywise.
(Python compares dicts order-insensitively and objects by identity;
both can only differ from this entrywise/structural approximation on
values that are not hashable dict keys, which no theorem below
relies on.) -/
def pyEq : Value → Value → Bool
  | .int a, .int b => a == b
  | .int a, .bool b => a == (if b then (1 : Int) else 0)
  | .bool a, .int b => (if a then (1 : Int) else 0) == b
  | .bool a, .bool b => a == b
  | .str a, .str b => a == b
  | .none, .none => true
  | .list xs, .list ys => pyEqList xs ys
  | .tuple xs, .tuple ys => pyEqList xs ys
  | .dict es, .dict fs => pyEqPairs es fs
  | .obj r as, .obj r' as' => r == r' && pyEqAttrs as as'
  | _, _ => false
termination_by structural v _ => v

def pyEqList : ValueList → ValueList → Bool
  | .nil, .nil => true
  | .cons x xs, .cons y ys => pyEq x y && pyEqList xs ys
  | _, _ => false
termination_by structural v _ => v

def pyEqPairs : ValuePairs → ValuePairs → Bool
  | .nil, .nil => true
  | .cons k v es, .cons k' v' fs => pyEq k k' && pyEq v v' && pyEqPairs es fs
  | _, _ => false
termination_by structural v _ => v

def pyEqAttrs : AttrPairs → AttrPairs → Bool
  | .nil, .nil => true
  | .cons k v es, .cons k' v' fs => k == k' && pyEq v v' && pyEqAttrs es fs
  | _, _ => false
termination_by structural v _ => v
end

mutual
/-- Whether `hash(v)` succeeds in Python: lists and dicts are
unhashable, tuples are hashable iff their elements are. -/
def hashable : Value → Bool
  | .list _ => false
  | .dict _ => false
  | .tuple xs => hashableList xs
  | _ => true

def hashableList : ValueList → Bool
  | .nil => true
  | .cons x xs => hashable x && hashableList xs
end

/-- CPython `d[k] = v` on an ordered dict: an existing equal key keeps
its stored key object and position and gets the new value; otherwise
the pair is appended. -/
def dictInsert : ValuePairs → Value → Value → ValuePairs
  | .nil, k, v => .cons k v .nil
  | .cons k' v' es, k, v =>
      if pyEq k' k then .cons k' v es else .cons k' v' (dictInsert es k v)

/-- CPython `d[k]` lookup (the key is known hashable when called). -/
def dictGet : ValuePairs → Value → Option Value
  | .nil, _ => Option.none
  | .cons k' v' es, k => if pyEq k' k then Option.some v' else dictGet es k

/-- `len` of a value list. -/
def vlLength : ValueList → Nat
  | .nil => 0
  | .cons _ tl => vlLength tl + 1

/-- Zero-based element access in a value list. -/
def vlGet : ValueList → Nat → Option Value
  | .nil, _ => Option.none
  | .cons x _, 0 => Option.some x
  | .cons _ tl, n + 1 => vlGet tl n

/-- A subscript key as a Python sequence index: `int` directly, `bool`
as `0`/`1` (Python accepts `xs[True]`); anything else is a
`TypeError`. -/
def toIndex : Value → Option Int
  | .int n => Option.some n
  | .bool b => Option.some (if b then 1 else 0)
  | _ => Option.none

/-- Python sequence indexing: one negative wrap, then bounds check. -/
def seqIndex (len : Nat) (i : Int) : Option Nat :=
  let j := if i < 0 then i + len else i
  if 0 ≤ j ∧ j < len then Option.some j.toNat else Option.none

/-- Python `obj[key]` (`__getitem__`) for the modelled values:
sequences and strings index by integer (negative wrap, `IndexError`
when out of range), dicts look keys up (`TypeError` for an unhashable
key, `KeyError` when absent), everything else is not subscriptable. -/
def getitem (obj key : Value) : Except EvalErr Value :=
  match obj with
  | .list xs =>
      match toIndex key with
      | Option.some i =>
          match seqIndex (vlLength xs) i with
          | Option.some j =>
              match vlGet xs j with
              | Option.some v => .ok v
              | Option.none => .error .indexOutOfRange
          | Option.none => .error .indexOutOfRange
      | Option.none => .error (.typeError "indices must be integers")
  | .tuple xs =>
      match toIndex key with
      | Option.some i =>
          match seqIndex (vlLength xs) i with
          | Option.some j =>
              match vlGet xs j with
              | Option.some v => .ok v
              | Option.none => .error .indexOutOfRange
          | Option.none => .error .indexOutOfRange
      | Option.none => .error (.typeError "indices must be integers")
  | .str s =>
      match toIndex key with
      | Option.some i =>
          match seqIndex s.data.length i with
          | Option.some j =>
              match s.data.get? j with
              | Option.some c => .ok (.str (String.mk [c]))
              | Option.none => .error .indexOutOfRange
          | Option.none => .error .indexOutOfRange
      | Option.none => .error (.typeError "string indices must be integers")
  | .dict es =>
      if hashable key then
        match dictGet es key with
        | Option.some v => .ok v
        | Option.none => .error (.keyNotFound key)
      else .error (.typeError "unhashable type")
  | _ => .error (.typeError "object is not subscriptable")

/-- `getattr(obj, attr)` for the modelled values: opaque objects expose
their attribute table; on every other modelled value the requested
attribute is absent (built-in methods are outside the value space),
raising `AttributeError` as `getattr` does. -/
def getattr (obj : Value) (attr : String) : Except EvalErr Value :=
  match obj with
  | .obj _ attrs => getattrLookup attrs attr
  | _ => .error (.attributeNotFound attr)
where getattrLookup : AttrPairs → String → Except EvalErr Value
  | .nil, a => .error (.attributeNotFound a)
  | .cons k v tl, a => if k == a then .ok v else getattrLookup tl a

/-- `isinstance(sl, ast.Slice)`. -/
def isSlice : Node → Bool
  | .slice _ _ _ => true
  | _ => false

/-- `node.id in data` / `data[node.id]` on the context dict. -/
def ctxGet : Ctx → String → Option Value
  | [], _ => Option.none
  | (k, v) :: rest, id => if k == id then Option.some v else ctxGet rest id

/-- The entries of a dict display prepared for `dictCombine`:
the independent evaluation result of each present sub-node, `none` for
an absent one.  Evaluation of a single sub-node is pure, so computing
the per-element results first and ordering their consumption in
`dictCombine` is observationally the dict comprehension of the
source. -/
def dictCombine :
    List (Option (Except EvalErr Value)) → List (Option (Except EvalErr Value)) →
    ValuePairs → Except EvalErr ValuePairs
  | [], _, acc => .ok acc
  | _ :: _, [], acc => .ok acc
  | Option.none :: ks, _ :: vs, acc => dictCombine ks vs acc
  | Option.some _ :: ks, Option.none :: vs, acc => dictCombine ks vs acc
  | Option.some rk :: ks, Option.some rv :: vs, acc =>
      match rk with
      | .error e => .error e
      | .ok kv =>
          match rv with
          | .error e => .error e
          | .ok vv =>
              if hashable kv then dictCombine ks vs (dictInsert acc kv vv)
              else .error (.typeError "unhashable type")

mutual
/-- `I18NFormatGetter._eval_node`: dispatch over the node kind.
It inlines the helpers `_eval_name`, `_eval_attribute` and
`_eval_subscript` at their call sites; any node kind outside the
handled ones falls to the `else` branch raising
`TypeError(f"disallowed expression: {node.__class__.__name__}")`,
modelled as `.disallowed (nodeName n)`.  For a dict display the
comprehension evaluates `k_i`, then `v_i`, then inserts (hashing the
key) before touching entry `i+1`; `dictCombine` consumes the
per-entry results in exactly that order. -/
def eval_node : Node → Ctx → Except EvalErr Value
  | .expression b, data => eval_node b data
  | .constant c, _ => .ok (constVal c)
  | .name id, data =>
      -- `_eval_name`: `data[node.id]`, else NameError
      match ctxGet data id with
      | Option.some v => .ok v
      | Option.none => .error (.nameNotFound id)
  | .attributeRef base attr, data =>
      -- `_eval_attribute`: evaluate the base, then `getattr`
      match eval_node base data with
      | .error e => .error e
      | .ok obj => getattr obj attr
  | .subscript base sl, data =>
      -- `_eval_subscript`: evaluate the base, reject a slice
      -- (`isinstance(sl, ast.Slice)`), then evaluate the key and index
      match eval_node base data with
      | .error e => .error e
      | .ok obj =>
          if isSlice sl then .error (.disallowed "slice")
          else
            match eval_node sl data with
            | .error e => .error e
            | .ok kv => getitem obj kv
  | .tuple elts, data => (eval_elts elts data).map Value.tuple
  | .list elts, data => (eval_elts elts data).map Value.list
  | .dict ks vs, data =>
      (dictCombine (eval_dict_elems ks data) (eval_dict_elems vs data) .nil).map Value.dict
  | n, _ => .error (.disallowed (nodeName n))

/-- Elementwise evaluation of a tuple/list display, left to right,
aborting at the first failure (the generator inside `tuple(...)` /
the list comprehension). -/
def eval_elts : NodeList → Ctx → Except EvalErr ValueList
  | .nil, _ => .ok .nil
  | .cons n ns, data =>
      match eval_node n data with
      | .error e => .error e
      | .ok v =>
          match eval_elts ns data with
          | .error e => .error e
          | .ok vs => .ok (.cons v vs)

/-- Per-element evaluation results of one side of a dict display
(`none` marks an absent sub-node). -/
def eval_dict_elems : OptNodeList → Ctx → List (Option (Except EvalErr Value))
  | .nil, _ => []
  | .cons .none tl, data => Option.none :: eval_dict_elems tl data
  | .cons (.some n) tl, data => Option.some (eval_node n data) :: eval_dict_elems tl data
end

/-- Two-digit lowercase hex, for `repr`'s control-character escapes. -/
def hex2 (n : Nat) : String :=
  let d := fun (k : Nat) => String.mk [Char.ofNat (if k < 10 then 48 + k else 87 + k)]
  d (n / 16 % 16) ++ d (n % 16)

/-- One character of a Python string `repr` body, given the chosen
quote: backslash, the quote, `\n`, `\r`, `\t` escaped, other control
characters as `\xNN`, the rest verbatim. -/
def escChar (q c : Char) : String :=
  if c = Char.ofNat 92 then String.mk [Char.ofNat 92, Char.ofNat 92]
  else if c = q then String.mk [Char.ofNat 92, c]
  else if c = Char.ofNat 10 then String.mk [Char.ofNat 92, 'n']
  else if c = Char.ofNat 13 then String.mk [Char.ofNat 92, 'r']
  else if c = Char.ofNat 9 then String.mk [Char.ofNat 92, 't']
  else if c.toNat < 32 || c.toNat = 127 then String.mk [Char.ofNat 92, 'x'] ++ hex2 c.toNat
  else String.mk [c]

/-- Python `repr` of a string: single-quoted, switching to double
quotes when the text contains a single quote but no double quote.
(Escaping of non-ASCII non-printables is elided.) -/
def pyReprStr (s : String) : String :=
  let sq := Char.ofNat 39
  let dq := Char.ofNat 34
  let q := if s.data.contains sq && !s.data.contains dq then dq else sq
  String.mk [q] ++ String.join (s.data.map (escChar q)) ++ String.mk [q]

mutual
/-- Python `repr` of a value: `str(x)` for containers shows elements
via `repr`, a one-element tuple gets its trailing comma, `str(obj)`
is the object's own repr text. -/
def pyRepr : Value → String
  | .str s => pyReprStr s
  | .int n => toString n
  | .bool b => if b then "True" else "False"
  | .none => "None"
  | .list xs => "[" ++ String.intercalate ", " (pyReprList xs) ++ "]"
  | .tuple (.cons x .nil) => "(" ++ pyRepr x ++ ",)"
  | .tuple xs => "(" ++ String.intercalate ", " (pyReprList xs) ++ ")"
  | .dict es => String.mk [Char.ofNat 123] ++ String.intercalate ", " (pyReprPairs es) ++ String.mk [Char.ofNat 125]
  | .obj r _ => r
termination_by structural v => v

def pyReprList : ValueList → List String
  | .nil => []
  | .cons v vs => pyRepr v :: pyReprList vs
termination_by structural v => v

def pyReprPairs : ValuePairs → List String
  | .nil => []
  | .cons k v es => (pyRepr k ++ ": " ++ pyRepr v) :: pyReprPairs es
termination_by structural v => v
end

/-- Python `str(value)`: the string itself for text, `repr`-style
canonical form otherwise — the `str(raw_value)` of `_render_text`. -/
def pyStr : Value → String
  | .str s => s
  | v => pyRepr v

/-- Python whitespace for `str.strip()` (ASCII part). -/
def isPySpace (c : Char) : Bool :=
  c = ' ' || c = Char.ofNat 9 || c = Char.ofNat 10 || c = Char.ofNat 13 ||
  c = Char.ofNat 11 || c = Char.ofNat 12

/-- `str.strip()`. -/
def pyStrip (s : String) : String :=
  String.mk (((s.data.dropWhile isPySpace).reverse.dropWhile isPySpace).reverse)

/-- The translation collaborator: `i18n.get(key, **params)`, `none`
when the key has no translation. -/
abbrev Tr := String → Ctx → Option String

/-- One recorded invocation of the collaborator: its key and params. -/
abbrev Call := String × Ctx

/-- The host-grammar parser `ast.parse(expr, mode="eval")`, abstract:
an external library of the source language.  A result is the
expression's AST; a failure is its `SyntaxError`. -/
abbrev ParseFn := String → Except EvalErr Node

/-- `I18NFormatGetter.safe_eval_expr`: parse, then evaluate. -/
def safe_eval_expr (parse : ParseFn) (expr : String) (data : Ctx) : Except EvalErr Value :=
  match parse expr with
  | .error e => .error e
  | .ok root => eval_node root data

/-- Failures of `_render_text`: any exception of `safe_eval_expr` is
wrapped into `ValueError(f"Invalid format expression: ...")` carrying
the (stripped) expression text, with the original exception as cause;
a missing translation raises `KeyError(f'Translation key=... not
found')` outside that wrapper. -/
inductive RenderErr where
  | invalidExpr (expr : String) (cause : EvalErr)
  | translationKeyNotFound (key : String)

/-- The `replace` callback of `_render_text` for one matched
placeholder: strip the group, evaluate it (wrapping failures), then —
for a string result — consult the collaborator with the full context,
failing on a missing translation; a non-string result is rendered with
`str`.  The second component records the collaborator invocations. -/
def replaceOne (parse : ParseFn) (tr : Tr) (data : Ctx) (group : String) :
    Except RenderErr String × List Call :=
  let expr := pyStrip group
  match safe_eval_expr parse expr data with
  | .error e => (.error (.invalidExpr expr e), [])
  | .ok raw =>
      match raw with
      | .str s =>
          match tr s data with
          | Option.some translated => (.ok translated, [(s, data)])
          | Option.none => (.error (.translationKeyNotFound s), [(s, data)])
      | v => (.ok (pyStr v), [])

/-- Prefix the pending literal output onto a scan result. -/
def consOut (f : List Char → List Char) :
    Except RenderErr (List Char) × List Call → Except RenderErr (List Char) × List Call
  | (.ok out, calls) => (.ok (f out), calls)
  | (.error e, calls) => (.error e, calls)

/-- `re.sub(r"{([^{}]+)}", replace, template)` as a left-to-right,
single-pass scan.  The state is `none` outside a candidate match and
`some run` after a `{` with `run` the (reversed) non-brace characters
read so far.  A `}` after a non-empty run completes a match (the
callback's exception aborts the whole substitution, as in `re.sub`);
a `{` or end-of-input abandons the candidate, emitting it literally —
re-scanning its brace-free characters could not start a match, so the
scan resumes at the new `{` / the end exactly as `re` does after
advancing position by position. -/
def subGo (rep : String → Except RenderErr String × List Call) :
    Option (List Char) → List Char → Except RenderErr (List Char) × List Call
  | Option.none, [] => (.ok [], [])
  | Option.some run, [] => (.ok ('{' :: run.reverse), [])
  | Option.none, c :: rest =>
      if c = '{' then subGo rep (Option.some []) rest
      else consOut (fun out => c :: out) (subGo rep Option.none rest)
  | Option.some run, c :: rest =>
      if c = '}' then
        match run with
        | [] => consOut (fun out => '{' :: '}' :: out) (subGo rep Option.none rest)
        | _ :: _ =>
            match rep (String.mk run.reverse) with
            | (.ok s, calls) =>
                match subGo rep Option.none rest with
                | (.ok out, calls') => (.ok (s.data ++ out), calls ++ calls')
                | (.error e, calls') => (.error e, calls ++ calls')
            | (.error e, calls) => (.error e, calls)
      else if c = '{' then
        consOut (fun out => '{' :: run.reverse ++ out) (subGo rep (Option.some []) rest)
      else subGo rep (Option.some (c :: run)) rest

/-- `I18NFormatGetter._render_text(data, ...)` on a template, with the
parser and the translation collaborator passed explicitly (the source
fetches the collaborator from `middleware_data` and raises
`RuntimeError` when it is missing; a present collaborator is assumed
here).  First component: the rendered string or the aborting failure;
second: every collaborator invocation, in order. -/
def renderAux (parse : ParseFn) (tr : Tr) (template : String) (data : Ctx) :
    Except RenderErr String × List Call :=
  match subGo (replaceOne parse tr data) Option.none template.data with
  | (.ok out, calls) => (.ok (String.mk out), calls)
  | (.error e, calls) => (.error e, calls)

/-- The rendered result of `_render_text`. -/
def render_text (parse : ParseFn) (tr : Tr) (template : String) (data : Ctx) :
    Except RenderErr String :=
  (renderAux parse tr template data).1

/-- The collaborator invocations a render performs. -/
def renderCalls (parse : ParseFn) (tr : Tr) (template : String) (data : Ctx) : List Call :=
  (renderAux parse tr template data).2

/-- Whether the pattern r"{([^{}]+)}" matches anywhere in the
template, by the same single-pass scan as `subGo`: the state is `none`
outside a candidate and `some b` inside one, `b` recording that at
least one non-brace character has been read. -/
def hasPhGo : Option Bool → List Char → Bool
  | _, [] => false
  | Option.none, c :: rest =>
      if c = '{' then hasPhGo (Option.some false) rest else hasPhGo Option.none rest
  | Option.some b, c :: rest =>
      if c = '}' then (if b then true else hasPhGo Option.none rest)
      else if c = '{' then hasPhGo (Option.some false) rest
      else hasPhGo (Option.some true) rest

/-- The template contains at least one placeholder span. -/
def hasPlaceholder (template : String) : Bool :=
  hasPhGo Option.none template.data

/-- A character the regex class `[^{}]` accepts. -/
def isNonBrace (c : Char) : Bool := c != '{' && c != '}'

/-- Whether a value is Python text (`isinstance(raw_value, str)`). -/
def isStrV : Value → Bool
  | .str _ => true
  | _ => false

/-- Whether a value is a composite literal (list, tuple or mapping). -/
def isComposite : Value → Bool
  | .list _ => true
  | .tuple _ => true
  | .dict _ => true
  | .obj _ _ => false
  | _ => false

/-- The node kinds outside the handled ones, i.e. exactly the domain of
the dispatcher's `else` branch. -/
def isDisallowedKind : Node → Bool
  | .call _ _ => true
  | .binOp _ _ _ => true
  | .unaryOp _ _ => true
  | .boolOp _ _ => true
  | .compare _ _ => true
  | .lambdaNode _ => true
  | .listComp _ => true
  | .starred _ => true
  | .joinedStr _ => true
  | .slice _ _ _ => true
  | _ => false

mutual
/-- A pure literal expression in the sense of the spec: a constant, or
a list/tuple/mapping display built only from literals. -/
def isLiteral : Node → Bool
  | .constant _ => true
  | .list es => isLiteralList es
  | .tuple es => isLiteralList es
  | .dict ks vs => isLiteralOpts ks && isLiteralOpts vs
  | _ => false

def isLiteralList : NodeList → Bool
  | .nil => true
  | .cons n ns => isLiteral n && isLiteralList ns

def isLiteralOpts : OptNodeList → Bool
  | .nil => true
  | .cons .none tl => isLiteralOpts tl
  | .cons (.some n) tl => isLiteral n && isLiteralOpts tl
end

mutual
/-- Modelled from the spec's words ("evaluating them ... yields the
literal's natural value"): the natural value of a mapping-free literal
expression, `none` elsewhere.  Mapping displays are excluded here
because their value additionally depends on key hashing and
deduplication, settled separately. -/
def litValue : Node → Option Value
  | .constant c => Option.some (constVal c)
  | .list es => (litValues es).map Value.list
  | .tuple es => (litValues es).map Value.tuple
  | _ => Option.none

def litValues : NodeList → Option ValueList
  | .nil => Option.some .nil
  | .cons n ns => (litValue n).bind (fun v => (litValues ns).map fun vs => ValueList.cons v vs)
end

/-- The present entries of a dict display:
`zip(keys, values, strict=False)` filtered by
`k is not None and v is not None`. -/
def zipPresent : OptNodeList → OptNodeList → List (Node × Node)
  | .nil, _ => []
  | .cons _ _, .nil => []
  | .cons .none ks, .cons _ vs => zipPresent ks vs
  | .cons (.some _) ks, .cons .none vs => zipPresent ks vs
  | .cons (.some k) ks, .cons (.some v) vs => (k, v) :: zipPresent ks vs
termination_by structural a _ => a

/-- The key sides of a pair list, as an all-present dict display. -/
def somesFst : List (Node × Node) → OptNodeList
  | [] => .nil
  | (k, _) :: ps => .cons (.some k) (somesFst ps)

/-- The value sides of a pair list, as an all-present dict display. -/
def somesSnd : List (Node × Node) → OptNodeList
  | [] => .nil
  | (_, v) :: ps => .cons (.some v) (somesSnd ps)

/-- Modelled from the spec's words ("the resulting mapping contains
exactly the entries ..."): entrywise evaluation of the present pairs,
in order, with no insertion/deduplication — the entry list the spec
predicts. -/
def evalPairsSpec : List (Node × Node) → Ctx → Except EvalErr ValuePairs
  | [], _ => .ok .nil
  | (k, v) :: ps, data =>
      match eval_node k data with
      | .error e => .error e
      | .ok kv =>
          match eval_node v data with
          | .error e => .error e
          | .ok vv =>
              match evalPairsSpec ps data with
              | .error e => .error e
              | .ok tl => .ok (.cons kv vv tl)

/-- No stored key of the dict equals (by Python `==`) the new key. -/
def keyAbsent : ValuePairs → Value → Bool
  | .nil, _ => true
  | .cons k' _ tl, k => !pyEq k' k && keyAbsent tl k

/-- The given key differs from every key of the entry list. -/
def headDistinct (k : Value) : ValuePairs → Bool
  | .nil => true
  | .cons k2 _ tl => !pyEq k k2 && headDistinct k tl

/-- All keys of the entry list are pairwise distinct under Python `==`. -/
def distinctKeys : ValuePairs → Bool
  | .nil => true
  | .cons k _ tl => headDistinct k tl && distinctKeys tl

/-- All keys of the entry list are hashable. -/
def allHashable : ValuePairs → Bool
  | .nil => true
  | .cons k _ tl => hashable k && allHashable tl

/-- Concatenation of entry lists. -/
def appendPairs : ValuePairs → ValuePairs → ValuePairs
  | .nil, l => l
  | .cons k v tl, l => .cons k v (appendPairs tl l)

/-- Every key of the second list is absent from the first. -/
def keysDisjoint (acc : ValuePairs) : ValuePairs → Bool
  | .nil => true
  | .cons k _ tl => keyAbsent acc k && keysDisjoint acc tl

/-! ## Unfolding equations

Manual one-step equations for the mutual evaluator (the equation
generator does not handle its nested catch-all matches). -/

theorem eval_node_expression (b : Node) (data : Ctx) :
    eval_node (.expression b) data = eval_node b data := rfl

theorem eval_node_constant (c : Const) (data : Ctx) :
    eval_node (.constant c) data = .ok (constVal c) := rfl

theorem eval_node_name (id : String) (data : Ctx) :
    eval_node (.name id) data =
      match ctxGet data id with
      | Option.some v => .ok v
      | Option.none => .error (.nameNotFound id) := rfl

theorem eval_node_attributeRef (b : Node) (attr : String) (data : Ctx) :
    eval_node (.attributeRef b attr) data =
      match eval_node b data with
      | .error e => .error e
      | .ok obj => getattr obj attr := rfl

theorem eval_node_subscript (b sl : Node) (data : Ctx) :
    eval_node (.subscript b sl) data =
      match eval_node b data with
      | .error e => .error e
      | .ok obj =>
          if isSlice sl then .error (.disallowed "slice")
          else
            match eval_node sl data with
            | .error e => .error e
            | .ok kv => getitem obj kv := rfl

theorem eval_node_tuple (es : NodeList) (data : Ctx) :
    eval_node (.tuple es) data = (eval_elts es data).map Value.tuple := rfl

theorem eval_node_list (es : NodeList) (data : Ctx) :
    eval_node (.list es) data = (eval_elts es data).map Value.list := rfl

theorem eval_node_dict (ks vs : OptNodeList) (data : Ctx) :
    eval_node (.dict ks vs) data =
      (dictCombine (eval_dict_elems ks data) (eval_dict_elems vs data) .nil).map Value.dict := rfl

theorem eval_elts_nil (data : Ctx) : eval_elts .nil data = .ok .nil := rfl

theorem eval_elts_cons (n : Node) (ns : NodeList) (data : Ctx) :
    eval_elts (.cons n ns) data =
      match eval_node n data with
      | .error e => .error e
      | .ok v =>
          match eval_elts ns data with
          | .error e => .error e
          | .ok vs => .ok (.cons v vs) := rfl

theorem eval_dict_elems_nil (data : Ctx) : eval_dict_elems .nil data = [] := rfl

theorem eval_dict_elems_cons_none (tl : OptNodeList) (data : Ctx) :
    eval_dict_elems (.cons .none tl) data = Option.none :: eval_dict_elems tl data := rfl

theorem eval_dict_elems_cons_some (n : Node) (tl : OptNodeList) (data : Ctx) :
    eval_dict_elems (.cons (.some n) tl) data
      = Option.some (eval_node n data) :: eval_dict_elems tl data := rfl

/-! ## Theorems -/

/-- C1 (counterexample): a disallowed construct nested after a
context-dependent sub-expression is *not* rejected first: evaluating
`[a, 1 + 1]` (a well-formed expression containing the forbidden
`BinOp`) in an empty context fails with the name error for `a`, not
with the rejection -- the spec's "rejected before evaluation" does not
hold of the code, whose rejection is interleaved with evaluation. -/
theorem nested_disallowed_preempted_by_nameError :
    eval_node
      (.list (.cons (.name "a")
        (.cons (.binOp (.constant (.int 1)) "Add" (.constant (.int 1))) .nil))) []
      = .error (.nameNotFound "a") := rfl

/-- C1 (amended): a node of a disallowed kind is rejected with the
`TypeError` naming the offending construct the moment the dispatcher
reaches it; in particular an expression whose top-level node is
disallowed is rejected identically for every context, so no name
lookup can pre-empt that rejection.  (A disallowed construct nested
after a failing sub-expression is instead pre-empted by that failure,
as the counterexample shows.) -/
theorem disallowed_kind_rejected_before_lookup :
    ∀ (n : Node) (data : Ctx), isDisallowedKind n = true →
      eval_node n data = .error (.disallowed (nodeName n)) := by
  intro n data h
  cases n <;> first | rfl | exact Bool.noConfusion h

/-- Witness for C1 (amended): `foo()` is rejected as a `Call` in the
empty context, where `foo` is certainly absent. -/
theorem disallowed_kind_rejected_before_lookup_witness :
    isDisallowedKind (.call (.name "foo") .nil) = true
    ∧ eval_node (.call (.name "foo") .nil) [] = .error (.disallowed "Call") :=
  ⟨rfl, disallowed_kind_rejected_before_lookup (.call (.name "foo") .nil) [] rfl⟩

/-- C3: a subscript whose slice is an `ast.Slice` never evaluates to a
value; whenever the base itself evaluates, the failure is exactly the
slice rejection, for every base value -- including bases a slice would
be valid on in the host language. -/
theorem slice_subscript_always_rejected :
    ∀ (b : Node) (lo hi st : OptNode) (data : Ctx),
      (∀ v, eval_node b data = .ok v →
          eval_node (.subscript b (.slice lo hi st)) data = .error (.disallowed "slice"))
      ∧ (∀ w, eval_node (.subscript b (.slice lo hi st)) data ≠ .ok w) := by
  intro b lo hi st data
  constructor
  · intro v hv
    rw [eval_node_subscript, hv]
    rfl
  · intro w hw
    rw [eval_node_subscript] at hw
    cases h : eval_node b data <;> simp [h, isSlice] at hw

/-- Witness for C3: with `a = [1, 2]` (a list, on which a slice would
be a valid host-language operation), `a[1:2]` is rejected. -/
theorem slice_subscript_always_rejected_witness :
    eval_node (.name "a") [("a", Value.list (.cons (.int 1) (.cons (.int 2) .nil)))]
      = .ok (Value.list (.cons (.int 1) (.cons (.int 2) .nil)))
    ∧ eval_node
        (.subscript (.name "a")
          (.slice (.some (.constant (.int 1))) (.some (.constant (.int 2))) .none))
        [("a", Value.list (.cons (.int 1) (.cons (.int 2) .nil)))]
      = .error (.disallowed "slice") :=
  ⟨rfl,
    (slice_subscript_always_rejected (.name "a")
      (.some (.constant (.int 1))) (.some (.constant (.int 2))) .none
      [("a", Value.list (.cons (.int 1) (.cons (.int 2) .nil)))]).1
      (Value.list (.cons (.int 1) (.cons (.int 2) .nil))) rfl⟩

/-- C5: a name reference looks the exact identifier up in the single
flat context: a present key evaluates to exactly the mapped value, an
absent one fails with the name error -- and the evaluation fails if
and only if the identifier is absent. -/
theorem name_lookup_iff :
    ∀ (id : String) (data : Ctx),
      (∀ v, ctxGet data id = Option.some v → eval_node (.name id) data = .ok v)
      ∧ (ctxGet data id = Option.none →
          eval_node (.name id) data = .error (.nameNotFound id))
      ∧ ((∃ e, eval_node (.name id) data = .error e) ↔ ctxGet data id = Option.none) := by
  intro id data
  refine ⟨?_, ?_, ?_⟩
  · intro v hv; rw [eval_node_name, hv]
  · intro hv; rw [eval_node_name, hv]
  · rw [eval_node_name]
    cases h : ctxGet data id <;> simp

/-- Witness for C5: a present key (`"k"`) and an absent one. -/
theorem name_lookup_iff_witness :
    ctxGet [("k", Value.int 1)] "k" = Option.some (Value.int 1)
    ∧ eval_node (.name "k") [("k", Value.int 1)] = .ok (Value.int 1)
    ∧ ctxGet [] "k" = Option.none
    ∧ eval_node (.name "k") [] = .error (.nameNotFound "k") :=
  ⟨rfl, (name_lookup_iff "k" [("k", Value.int 1)]).1 (Value.int 1) rfl,
   rfl, (name_lookup_iff "k" []).2.1 rfl⟩

/-- C8: the renderer is a pure function of the template, the context
and the collaborator: re-invoking it with identical arguments yields
the identical result and the identical collaborator-call trace -- in
this stateless embedding of `_render_text` (which reads only its
arguments and owns no mutable state) the two invocations coincide
definitionally. -/
theorem render_is_deterministic :
    ∀ (parse : ParseFn) (tr : Tr) (template : String) (data : Ctx),
      render_text parse tr template data = render_text parse tr template data
      ∧ renderCalls parse tr template data = renderCalls parse tr template data :=
  fun _ _ _ _ => ⟨rfl, rfl⟩

/-- Left conjunct of a true boolean conjunction. -/
theorem andL {a b : Bool} (h : (a && b) = true) : a = true := by
  cases a <;> simp_all

/-- Right conjunct of a true boolean conjunction. -/
theorem andR {a b : Bool} (h : (a && b) = true) : b = true := by
  cases a <;> simp_all

mutual
/-- A literal expression evaluates identically in every context. -/
theorem literal_ctx_free :
    ∀ (n : Node), isLiteral n = true → ∀ (c c' : Ctx), eval_node n c = eval_node n c'
  | .constant _, _, _, _ => rfl
  | .list es, h, c, c' => by
      rw [eval_node_list, eval_node_list, literal_ctx_free_list es h c c']
  | .tuple es, h, c, c' => by
      rw [eval_node_tuple, eval_node_tuple, literal_ctx_free_list es h c c']
  | .dict ks vs, h, c, c' => by
      rw [eval_node_dict, eval_node_dict,
        literal_ctx_free_opts ks (andL h) c c', literal_ctx_free_opts vs (andR h) c c']
  | .expression _, h, _, _ => Bool.noConfusion h
  | .name _, h, _, _ => Bool.noConfusion h
  | .attributeRef _ _, h, _, _ => Bool.noConfusion h
  | .subscript _ _, h, _, _ => Bool.noConfusion h
  | .call _ _, h, _, _ => Bool.noConfusion h
  | .binOp _ _ _, h, _, _ => Bool.noConfusion h
  | .unaryOp _ _, h, _, _ => Bool.noConfusion h
  | .boolOp _ _, h, _, _ => Bool.noConfusion h
  | .compare _ _, h, _, _ => Bool.noConfusion h
  | .lambdaNode _, h, _, _ => Bool.noConfusion h
  | .listComp _, h, _, _ => Bool.noConfusion h
  | .starred _, h, _, _ => Bool.noConfusion h
  | .joinedStr _, h, _, _ => Bool.noConfusion h
  | .slice _ _ _, h, _, _ => Bool.noConfusion h

theorem literal_ctx_free_list :
    ∀ (l : NodeList), isLiteralList l = true → ∀ (c c' : Ctx), eval_elts l c = eval_elts l c'
  | .nil, _, _, _ => rfl
  | .cons n ns, h, c, c' => by
      rw [eval_elts_cons, eval_elts_cons, literal_ctx_free n (andL h) c c',
        literal_ctx_free_list ns (andR h) c c']

theorem literal_ctx_free_opts :
    ∀ (l : OptNodeList), isLiteralOpts l = true → ∀ (c c' : Ctx),
      eval_dict_elems l c = eval_dict_elems l c'
  | .nil, _, _, _ => rfl
  | .cons .none tl, h, c, c' => by
      rw [eval_dict_elems_cons_none, eval_dict_elems_cons_none, literal_ctx_free_opts tl h c c']
  | .cons (.some n) tl, h, c, c' => by
      rw [eval_dict_elems_cons_some, eval_dict_elems_cons_some, literal_ctx_free n (andL h) c c',
        literal_ctx_free_opts tl (andR h) c c']
end

mutual
/-- A mapping-free literal expression evaluates to its natural value
in every context. -/
theorem literal_natural_value :
    ∀ (n : Node) (v : Value) (c : Ctx), litValue n = Option.some v → eval_node n c = .ok v
  | .constant cst, v, c, h => by
      have hv : constVal cst = v := Option.some.inj h
      rw [eval_node_constant, hv]
  | .list es, v, c, h => by
      have h' : (litValues es).map Value.list = Option.some v := h
      cases hes : litValues es with
      | none => rw [hes] at h'; exact Option.noConfusion h'
      | some vs =>
          rw [hes] at h'
          have hv : Value.list vs = v := Option.some.inj h'
          rw [eval_node_list, literal_natural_value_list es vs c hes, ← hv]
          rfl
  | .tuple es, v, c, h => by
      have h' : (litValues es).map Value.tuple = Option.some v := h
      cases hes : litValues es with
      | none => rw [hes] at h'; exact Option.noConfusion h'
      | some vs =>
          rw [hes] at h'
          have hv : Value.tuple vs = v := Option.some.inj h'
          rw [eval_node_tuple, literal_natural_value_list es vs c hes, ← hv]
          rfl
  | .expression _, _, _, h => Option.noConfusion h
  | .name _, _, _, h => Option.noConfusion h
  | .attributeRef _ _, _, _, h => Option.noConfusion h
  | .subscript _ _, _, _, h => Option.noConfusion h
  | .dict _ _, _, _, h => Option.noConfusion h
  | .call _ _, _, _, h => Option.noConfusion h
  | .binOp _ _ _, _, _, h => Option.noConfusion h
  | .unaryOp _ _, _, _, h => Option.noConfusion h
  | .boolOp _ _, _, _, h => Option.noConfusion h
  | .compare _ _, _, _, h => Option.noConfusion h
  | .lambdaNode _, _, _, h => Option.noConfusion h
  | .listComp _, _, _, h => Option.noConfusion h
  | .starred _, _, _, h => Option.noConfusion h
  | .joinedStr _, _, _, h => Option.noConfusion h
  | .slice _ _ _, _, _, h => Option.noConfusion h

theorem literal_natural_value_list :
    ∀ (l : NodeList) (vs : ValueList) (c : Ctx), litValues l = Option.some vs → eval_elts l c = .ok vs
  | .nil, vs, c, h => by
      have hv : ValueList.nil = vs := Option.some.inj h
      rw [eval_elts_nil, ← hv]
  | .cons n ns, vs, c, h => by
      have h' : (litValue n).bind (fun v => (litValues ns).map fun tl => ValueList.cons v tl)
          = Option.some vs := h
      cases hn : litValue n with
      | none => rw [hn] at h'; exact Option.noConfusion h'
      | some v₁ =>
          rw [hn] at h'
          cases hns : litValues ns with
          | none => rw [hns] at h'; exact Option.noConfusion h'
          | some tl =>
              rw [hns] at h'
              have hv : ValueList.cons v₁ tl = vs := Option.some.inj h'
              rw [eval_elts_cons, literal_natural_value n v₁ c hn,
                literal_natural_value_list ns tl c hns, ← hv]
end

/-- C4 (counterexample): the pure literal `{[1]: 2}` -- a mapping
built only from literals -- does not evaluate to its natural value:
its key is unhashable and evaluation fails with the `TypeError`, for
the empty context as for any other. -/
theorem literal_unhashable_key_eval_fails :
    isLiteral
      (.dict (.cons (.some (.list (.cons (.constant (.int 1)) .nil))) .nil)
             (.cons (.some (.constant (.int 2))) .nil)) = true
    ∧ eval_node
        (.dict (.cons (.some (.list (.cons (.constant (.int 1)) .nil))) .nil)
               (.cons (.some (.constant (.int 2))) .nil)) []
        = .error (.typeError "unhashable type") :=
  ⟨rfl, rfl⟩

/-- C4 (amended): a literal expression ignores the context entirely --
evaluation returns the same outcome for every context -- and every
mapping-free literal yields its natural value; a mapping literal also
ignores the context but fails on an unhashable key, as the
counterexample shows. -/
theorem literal_eval_ignores_context :
    (∀ (n : Node) (c c' : Ctx), isLiteral n = true → eval_node n c = eval_node n c')
    ∧ (∀ (n : Node) (v : Value) (c : Ctx), litValue n = Option.some v → eval_node n c = .ok v) :=
  ⟨fun n c c' h => literal_ctx_free n h c c',
   fun n v c h => literal_natural_value n v c h⟩

/-- Witness for C4 (amended): the literal `[1]` evaluates identically
in a populated and in the empty context, and `True` yields its natural
value. -/
theorem literal_eval_ignores_context_witness :
    isLiteral (.list (.cons (.constant (.int 1)) .nil)) = true
    ∧ eval_node (.list (.cons (.constant (.int 1)) .nil)) [("x", Value.int 9)]
        = eval_node (.list (.cons (.constant (.int 1)) .nil)) []
    ∧ litValue (.constant (.bool true)) = Option.some (Value.bool true)
    ∧ eval_node (.constant (.bool true)) [] = .ok (Value.bool true) :=
  ⟨rfl,
   literal_eval_ignores_context.1 (.list (.cons (.constant (.int 1)) .nil))
     [("x", Value.int 9)] [] rfl,
   rfl,
   literal_eval_ignores_context.2 (.constant (.bool true)) (Value.bool true) [] rfl⟩

theorem dictCombine_cons_somes (rk rv : Except EvalErr Value)
    (ks vs : List (Option (Except EvalErr Value))) (acc : ValuePairs) :
    dictCombine (Option.some rk :: ks) (Option.some rv :: vs) acc =
      match rk with
      | .error e => .error e
      | .ok kv =>
          match rv with
          | .error e => .error e
          | .ok vv =>
              if hashable kv then dictCombine ks vs (dictInsert acc kv vv)
              else .error (.typeError "unhashable type") := rfl

theorem evalPairsSpec_cons (k v : Node) (ps : List (Node × Node)) (data : Ctx) :
    evalPairsSpec ((k, v) :: ps) data =
      match eval_node k data with
      | .error e => .error e
      | .ok kv =>
          match eval_node v data with
          | .error e => .error e
          | .ok vv =>
              match evalPairsSpec ps data with
              | .error e => .error e
              | .ok tl => .ok (.cons kv vv tl) := rfl

theorem appendPairs_nil_right : ∀ (l : ValuePairs), appendPairs l .nil = l
  | .nil => rfl
  | .cons k v tl => by
      show ValuePairs.cons k v (appendPairs tl .nil) = ValuePairs.cons k v tl
      rw [appendPairs_nil_right tl]

theorem appendPairs_assoc : ∀ (a b c : ValuePairs),
    appendPairs (appendPairs a b) c = appendPairs a (appendPairs b c)
  | .nil, _, _ => rfl
  | .cons k v tl, b, c => by
      show ValuePairs.cons k v (appendPairs (appendPairs tl b) c)
        = ValuePairs.cons k v (appendPairs tl (appendPairs b c))
      rw [appendPairs_assoc tl b c]

theorem dictInsert_absent : ∀ (acc : ValuePairs) (k v : Value),
    keyAbsent acc k = true → dictInsert acc k v = appendPairs acc (.cons k v .nil)
  | .nil, _, _, _ => rfl
  | .cons k' v' tl, k, v, h => by
      have hne : pyEq k' k = false := by
        have := andL h
        cases hpk : pyEq k' k
        · rfl
        · rw [hpk] at this; exact Bool.noConfusion this
      show (if pyEq k' k then ValuePairs.cons k' v tl
            else ValuePairs.cons k' v' (dictInsert tl k v))
          = ValuePairs.cons k' v' (appendPairs tl (.cons k v .nil))
      rw [hne, dictInsert_absent tl k v (andR h)]
      rfl

theorem keyAbsent_append : ∀ (acc : ValuePairs) (kv vv k2 : Value),
    keyAbsent (appendPairs acc (.cons kv vv .nil)) k2 = (keyAbsent acc k2 && !pyEq kv k2)
  | .nil, kv, vv, k2 => by
      show (!pyEq kv k2 && true) = (true && !pyEq kv k2)
      simp
  | .cons k' v' tl, kv, vv, k2 => by
      show (!pyEq k' k2 && keyAbsent (appendPairs tl (.cons kv vv .nil)) k2)
          = ((!pyEq k' k2 && keyAbsent tl k2) && !pyEq kv k2)
      rw [keyAbsent_append tl kv vv k2, Bool.and_assoc]

theorem keysDisjoint_append : ∀ (L acc : ValuePairs) (kv vv : Value),
    keysDisjoint acc L = true → headDistinct kv L = true →
    keysDisjoint (appendPairs acc (.cons kv vv .nil)) L = true
  | .nil, _, _, _, _, _ => rfl
  | .cons k2 v2 tl, acc, kv, vv, hdisj, hhead => by
      show (keyAbsent (appendPairs acc (.cons kv vv .nil)) k2
            && keysDisjoint (appendPairs acc (.cons kv vv .nil)) tl) = true
      rw [keyAbsent_append, andL hdisj, andL hhead,
        keysDisjoint_append tl acc kv vv (andR hdisj) (andR hhead)]
      rfl

theorem keysDisjoint_nil : ∀ (L : ValuePairs), keysDisjoint .nil L = true
  | .nil => rfl
  | .cons k v tl => by
      show (keyAbsent .nil k && keysDisjoint .nil tl) = true
      rw [keysDisjoint_nil tl]
      rfl

theorem dictCombine_spec :
    ∀ (ps : List (Node × Node)) (data : Ctx) (L acc : ValuePairs),
      evalPairsSpec ps data = .ok L → allHashable L = true → distinctKeys L = true →
      keysDisjoint acc L = true →
      dictCombine (eval_dict_elems (somesFst ps) data) (eval_dict_elems (somesSnd ps) data) acc
        = .ok (appendPairs acc L) := by
  intro ps
  induction ps with
  | nil =>
      intro data L acc h _ _ _
      have hL : ValuePairs.nil = L := Except.ok.inj h
      rw [← hL, appendPairs_nil_right]
      rfl
  | cons p ps ih =>
      obtain ⟨k, v⟩ := p
      intro data L acc h hh hd hdisj
      rw [evalPairsSpec_cons] at h
      cases hk : eval_node k data with
      | error e => rw [hk] at h; exact Except.noConfusion h
      | ok kv =>
          rw [hk] at h
          cases hv : eval_node v data with
          | error e => rw [hv] at h; exact Except.noConfusion h
          | ok vv =>
              rw [hv] at h
              cases hps : evalPairsSpec ps data with
              | error e => rw [hps] at h; exact Except.noConfusion h
              | ok tl =>
                  rw [hps] at h
                  have hL : ValuePairs.cons kv vv tl = L := Except.ok.inj h
                  subst hL
                  show dictCombine
                      (Option.some (eval_node k data) :: eval_dict_elems (somesFst ps) data)
                      (Option.some (eval_node v data) :: eval_dict_elems (somesSnd ps) data) acc
                    = .ok (appendPairs acc (.cons kv vv tl))
                  rw [dictCombine_cons_somes, hk, hv]
                  simp only
                  rw [if_pos (andL hh), dictInsert_absent acc kv vv (andL hdisj),
                    ih data tl (appendPairs acc (.cons kv vv .nil)) hps (andR hh) (andR hd)
                      (keysDisjoint_append tl acc kv vv (andR hdisj) (andL hd)),
                    appendPairs_assoc]
                  rfl

theorem dictCombine_skip :
    ∀ (ks vs : OptNodeList) (data : Ctx) (acc : ValuePairs),
      dictCombine (eval_dict_elems ks data) (eval_dict_elems vs data) acc
        = dictCombine (eval_dict_elems (somesFst (zipPresent ks vs)) data)
            (eval_dict_elems (somesSnd (zipPresent ks vs)) data) acc
  | .nil, vs, data, acc => rfl
  | .cons .none ks, .nil, data, acc => rfl
  | .cons (.some _) ks, .nil, data, acc => rfl
  | .cons .none ks, .cons .none vs, data, acc => dictCombine_skip ks vs data acc
  | .cons .none ks, .cons (.some _) vs, data, acc => dictCombine_skip ks vs data acc
  | .cons (.some _) ks, .cons .none vs, data, acc => dictCombine_skip ks vs data acc
  | .cons (.some k) ks, .cons (.some v) vs, data, acc => by
      show dictCombine
          (Option.some (eval_node k data) :: eval_dict_elems ks data)
          (Option.some (eval_node v data) :: eval_dict_elems vs data) acc
        = dictCombine
            (Option.some (eval_node k data) :: eval_dict_elems (somesFst (zipPresent ks vs)) data)
            (Option.some (eval_node v data) :: eval_dict_elems (somesSnd (zipPresent ks vs)) data) acc
      rw [dictCombine_cons_somes, dictCombine_cons_somes]
      cases hk : eval_node k data with
      | error e => rfl
      | ok kv =>
          cases hv : eval_node v data with
          | error e => rfl
          | ok vv =>
              simp only
              split
              · exact dictCombine_skip ks vs data (dictInsert acc kv vv)
              · rfl

/-- C9 (counterexample): in the mapping literal `{1: "a", 1: "b"}`
both entries have present key and value sub-nodes, yet the resulting
mapping does not contain both: the duplicate key collapses the two
entries into one (the later value wins), so the mapping does not
"contain exactly the entries whose key and value sub-nodes are both
present". -/
theorem dict_duplicate_keys_collapse :
    eval_node
      (.dict (.cons (.some (.constant (.int 1))) (.cons (.some (.constant (.int 1))) .nil))
             (.cons (.some (.constant (.str "a"))) (.cons (.some (.constant (.str "b"))) .nil))) []
      = .ok (.dict (.cons (.int 1) (.str "b") .nil))
    ∧ eval_node
        (.dict (.cons (.some (.constant (.int 1))) (.cons (.some (.constant (.int 1))) .nil))
               (.cons (.some (.constant (.str "a"))) (.cons (.some (.constant (.str "b"))) .nil))) []
        ≠ .ok (.dict (.cons (.int 1) (.str "a") (.cons (.int 1) (.str "b") .nil))) := by
  constructor
  · rfl
  · intro h
    rw [show eval_node
        (.dict (.cons (.some (.constant (.int 1))) (.cons (.some (.constant (.int 1))) .nil))
               (.cons (.some (.constant (.str "a"))) (.cons (.some (.constant (.str "b"))) .nil))) []
        = .ok (.dict (.cons (.int 1) (.str "b") .nil)) from rfl] at h
    simp at h

/-- C9 (amended): a dict display evaluates by zipping the key and
value lists (surplus entries beyond the shorter list are dropped),
skipping every pair with an absent key or value sub-node, evaluating
each remaining pair with the same evaluator in order and inserting it
into the mapping: evaluation of the display is unchanged by removing
the skipped and surplus entries, and when the evaluated keys are
pairwise distinct and hashable the resulting mapping contains exactly
the present entries; a duplicate key instead collapses onto the
earlier entry (later value wins), as the counterexample shows. -/
theorem dict_display_eval :
    (∀ (ks vs : OptNodeList) (data : Ctx),
        eval_node (.dict ks vs) data
          = eval_node (.dict (somesFst (zipPresent ks vs)) (somesSnd (zipPresent ks vs))) data)
    ∧ (∀ (ks vs : OptNodeList) (data : Ctx) (ps : ValuePairs),
        evalPairsSpec (zipPresent ks vs) data = .ok ps →
        allHashable ps = true → distinctKeys ps = true →
        eval_node (.dict ks vs) data = .ok (.dict ps)) := by
  constructor
  · intro ks vs data
    rw [eval_node_dict, eval_node_dict, dictCombine_skip]
  · intro ks vs data ps h hh hd
    rw [eval_node_dict, dictCombine_skip,
      dictCombine_spec (zipPresent ks vs) data ps .nil h hh hd (keysDisjoint_nil ps)]
    rfl

/-- Witness for C9 (amended): in `{1: "a", <absent>: "z", "x": <surplus>}`
-- keys `[1, None, "x"]` against values `["a", "z"]` -- the absent-key
entry is skipped and the surplus key `"x"` is dropped, leaving exactly
`{1: "a"}`. -/
theorem dict_display_eval_witness :
    evalPairsSpec
        (zipPresent
          (.cons (.some (.constant (.int 1)))
            (.cons .none (.cons (.some (.constant (.str "x"))) .nil)))
          (.cons (.some (.constant (.str "a"))) (.cons (.some (.constant (.str "z"))) .nil))) []
      = .ok (.cons (.int 1) (.str "a") .nil)
    ∧ allHashable (.cons (.int 1) (.str "a") .nil) = true
    ∧ distinctKeys (.cons (.int 1) (.str "a") .nil) = true
    ∧ eval_node
        (.dict
          (.cons (.some (.constant (.int 1)))
            (.cons .none (.cons (.some (.constant (.str "x"))) .nil)))
          (.cons (.some (.constant (.str "a"))) (.cons (.some (.constant (.str "z"))) .nil))) []
      = .ok (.dict (.cons (.int 1) (.str "a") .nil)) :=
  ⟨rfl, rfl, rfl,
   dict_display_eval.2
     (.cons (.some (.constant (.int 1)))
       (.cons .none (.cons (.some (.constant (.str "x"))) .nil)))
     (.cons (.some (.constant (.str "a"))) (.cons (.some (.constant (.str "z"))) .nil))
     [] (.cons (.int 1) (.str "a") .nil) rfl rfl rfl⟩

theorem subGo_none_nil (rep : String → Except RenderErr String × List Call) :
    subGo rep Option.none [] = (.ok [], []) := rfl

theorem subGo_some_nil (rep : String → Except RenderErr String × List Call) (run : List Char) :
    subGo rep (Option.some run) [] = (.ok ('{' :: run.reverse), []) := rfl

theorem subGo_none_cons (rep : String → Except RenderErr String × List Call) (c : Char)
    (rest : List Char) :
    subGo rep Option.none (c :: rest) =
      if c = '{' then subGo rep (Option.some []) rest
      else consOut (fun out => c :: out) (subGo rep Option.none rest) := rfl

theorem subGo_some_step (rep : String → Except RenderErr String × List Call) (run : List Char)
    (c : Char) (rest : List Char) (h1 : ¬(c = '}')) (h2 : ¬(c = '{')) :
    subGo rep (Option.some run) (c :: rest) = subGo rep (Option.some (c :: run)) rest := by
  simp only [subGo]
  rw [if_neg h1, if_neg h2]

theorem subGo_some_empty_close (rep : String → Except RenderErr String × List Call)
    (rest : List Char) :
    subGo rep (Option.some []) ('}' :: rest)
      = consOut (fun out => '{' :: '}' :: out) (subGo rep Option.none rest) := rfl

theorem subGo_some_open (rep : String → Except RenderErr String × List Call) (run : List Char)
    (rest : List Char) :
    subGo rep (Option.some run) ('{' :: rest)
      = consOut (fun out => '{' :: run.reverse ++ out) (subGo rep (Option.some []) rest) := rfl

theorem subGo_some_close (rep : String → Except RenderErr String × List Call) (a : Char)
    (as rest : List Char) :
    subGo rep (Option.some (a :: as)) ('}' :: rest)
      = match rep (String.mk (a :: as).reverse) with
        | (.ok s, calls) =>
            match subGo rep Option.none rest with
            | (.ok out, calls') => (.ok (s.data ++ out), calls ++ calls')
            | (.error err, calls') => (.error err, calls ++ calls')
        | (.error err, calls) => (.error err, calls) := rfl

theorem subGo_no_match (rep : String → Except RenderErr String × List Call) :
    ∀ (cs : List Char),
      (hasPhGo Option.none cs = false → subGo rep Option.none cs = (.ok cs, []))
      ∧ (∀ (run : List Char), hasPhGo (Option.some (!run.isEmpty)) cs = false →
          subGo rep (Option.some run) cs = (.ok ('{' :: run.reverse ++ cs), [])) := by
  intro cs
  induction cs with
  | nil =>
      refine ⟨fun _ => rfl, fun run _ => ?_⟩
      rw [subGo_some_nil, List.append_nil]
  | cons c rest ih =>
      constructor
      · intro h
        by_cases hc : c = '{'
        · subst hc
          have h' : hasPhGo (Option.some false) rest = false := h
          rw [subGo_none_cons, if_pos rfl, ih.2 [] h']
          rfl
        · have h' : hasPhGo Option.none rest = false := by simpa [hasPhGo, hc] using h
          rw [subGo_none_cons, if_neg hc, ih.1 h']
          rfl
      · intro run h
        by_cases hc : c = '}'
        · subst hc
          cases run with
          | nil =>
              have h' : hasPhGo Option.none rest = false := h
              rw [subGo_some_empty_close, ih.1 h']
              rfl
          | cons a as => exact Bool.noConfusion h
        · by_cases hb : c = '{'
          · subst hb
            have h' : hasPhGo (Option.some false) rest = false := h
            rw [subGo_some_open, ih.2 [] h']
            rfl
          · have h' : hasPhGo (Option.some true) rest = false := by
              simpa [hasPhGo, hc, hb] using h
            rw [subGo_some_step rep run c rest hc hb, ih.2 (c :: run) h']
            simp [List.reverse_cons, List.append_assoc]

/-- C6: a template in which the pattern matches nowhere renders to
itself, for every parser, every collaborator and every context, and
the collaborator is never invoked. -/
theorem no_placeholder_render_identity :
    ∀ (parse : ParseFn) (tr : Tr) (template : String) (data : Ctx),
      hasPlaceholder template = false →
      renderAux parse tr template data = (.ok template, []) := by
  intro parse tr template data h
  have h2 := (subGo_no_match (replaceOne parse tr data) template.data).1 h
  show (match subGo (replaceOne parse tr data) Option.none template.data with
        | (Except.ok out, calls) => ((Except.ok (String.mk out) : Except RenderErr String), calls)
        | (Except.error err, calls) => (Except.error err, calls)) = (Except.ok template, [])
  rw [h2]

/-- Witness for C6: a placeholder-free template passes through a
renderer whose parser rejects everything and whose collaborator knows
nothing, untouched and without any collaborator call. -/
theorem no_placeholder_render_identity_witness :
    hasPlaceholder "hello" = false
    ∧ renderAux (fun _ => .error (.parseError "invalid syntax")) (fun _ _ => Option.none)
        "hello" [] = (.ok "hello", []) :=
  ⟨rfl,
   no_placeholder_render_identity (fun _ => .error (.parseError "invalid syntax"))
     (fun _ _ => Option.none) "hello" [] rfl⟩

theorem subGo_accum (rep : String → Except RenderErr String × List Call) :
    ∀ (cs run rest : List Char),
      cs.all isNonBrace = true →
      subGo rep (Option.some run) (cs ++ rest) = subGo rep (Option.some (cs.reverse ++ run)) rest := by
  intro cs
  induction cs with
  | nil => intro run rest _; rfl
  | cons c cs ih =>
      intro run rest hall
      have hc : isNonBrace c = true := andL hall
      have h1 : ¬(c = '{') := by
        intro hEq; rw [hEq] at hc; exact Bool.noConfusion hc
      have h2 : ¬(c = '}') := by
        intro hEq; rw [hEq] at hc; exact Bool.noConfusion hc
      show subGo rep (Option.some run) (c :: (cs ++ rest)) = _
      rw [subGo_some_step rep run c (cs ++ rest) h2 h1, ih (c :: run) rest (andR hall),
        List.reverse_cons, List.append_assoc]
      rfl

theorem renderAux_single_placeholder :
    ∀ (parse : ParseFn) (tr : Tr) (data : Ctx) (e : String),
      e.data ≠ [] → e.data.all isNonBrace = true →
      renderAux parse tr (String.mk ('{' :: e.data ++ ['}'])) data = replaceOne parse tr data e := by
  intro parse tr data e hne hnb
  obtain ⟨a, as, hrev⟩ : ∃ a as, e.data.reverse = a :: as := by
    cases hr : e.data.reverse with
    | nil => exact absurd (List.reverse_eq_nil_iff.mp hr) hne
    | cons a as => exact ⟨a, as, rfl⟩
  have h2 : subGo (replaceOne parse tr data) (Option.some []) (e.data ++ ['}'])
      = subGo (replaceOne parse tr data) (Option.some (e.data.reverse ++ [])) ['}'] :=
    subGo_accum _ e.data [] ['}'] hnb
  have h3 : subGo (replaceOne parse tr data) (Option.some (e.data.reverse ++ [])) ['}']
      = subGo (replaceOne parse tr data) (Option.some (a :: as)) ['}'] := by
    rw [List.append_nil, hrev]
  have hmk : String.mk (a :: as).reverse = e := by
    rw [← hrev, List.reverse_reverse]
  show (match subGo (replaceOne parse tr data) Option.none ('{' :: e.data ++ ['}']) with
        | (Except.ok out, calls) => ((Except.ok (String.mk out) : Except RenderErr String), calls)
        | (Except.error err, calls) => (Except.error err, calls)) = replaceOne parse tr data e
  have h1 : subGo (replaceOne parse tr data) Option.none ('{' :: e.data ++ ['}'])
      = subGo (replaceOne parse tr data) (Option.some []) (e.data ++ ['}']) := rfl
  rw [h1, h2, h3, subGo_some_close, hmk]
  rcases hx : replaceOne parse tr data e with ⟨r, calls⟩
  cases r with
  | ok s =>
      rw [subGo_none_nil]
      simp
  | error err => simp

/-- C2: a placeholder whose expression evaluates to a string `s`
invokes the collaborator exactly once with key `s` and the full render
context as params; a missing translation aborts the render with
`TranslationKeyNotFound s`, and otherwise the translated string (not
`s`) is substituted.  Stated for the `replace` callback of the single
placeholder and for the render of a one-placeholder template. -/
theorem string_result_translated_once :
    ∀ (parse : ParseFn) (tr : Tr) (data : Ctx) (e : String) (nd : Node) (s : String),
      pyStrip e = e → parse e = .ok nd → eval_node nd data = .ok (.str s) →
      replaceOne parse tr data e
        = (match tr s data with
           | Option.some t => (Except.ok t, [(s, data)])
           | Option.none => (Except.error (RenderErr.translationKeyNotFound s), [(s, data)]))
      ∧ (e.data ≠ [] → e.data.all isNonBrace = true →
          renderAux parse tr (String.mk ('{' :: e.data ++ ['}'])) data
            = (match tr s data with
               | Option.some t => (Except.ok t, [(s, data)])
               | Option.none => (Except.error (RenderErr.translationKeyNotFound s), [(s, data)]))) := by
  intro parse tr data e nd s hstrip hparse heval
  have hse : safe_eval_expr parse e data = .ok (.str s) := by
    show (match parse e with
          | Except.error err => (Except.error err : Except EvalErr Value)
          | Except.ok root => eval_node root data) = .ok (.str s)
    rw [hparse]
    exact heval
  have hrep : replaceOne parse tr data e
      = (match tr s data with
         | Option.some t => (Except.ok t, [(s, data)])
         | Option.none => (Except.error (RenderErr.translationKeyNotFound s), [(s, data)])) := by
    show (match safe_eval_expr parse (pyStrip e) data with
          | Except.error err =>
              ((Except.error (RenderErr.invalidExpr (pyStrip e) err) : Except RenderErr String),
                ([] : List Call))
          | Except.ok raw =>
              match raw with
              | Value.str s' =>
                  (match tr s' data with
                   | Option.some t => ((Except.ok t : Except RenderErr String), [(s', data)])
                   | Option.none =>
                       (Except.error (RenderErr.translationKeyNotFound s'), [(s', data)]))
              | v => (Except.ok (pyStr v), ([] : List Call))) = _
    rw [hstrip, hse]
  refine ⟨hrep, fun hne hnb => ?_⟩
  rw [renderAux_single_placeholder parse tr data e hne hnb, hrep]

/-- Witness for C2: rendering `{k}` with `k = "greet"` calls the
collaborator exactly once, with key `"greet"` and the full context,
and substitutes the translated `"Hello"`. -/
theorem string_result_translated_once_witness :
    pyStrip "k" = "k"
    ∧ eval_node (Node.expression (Node.name "k")) [("k", Value.str "greet")]
        = .ok (.str "greet")
    ∧ renderAux
        (fun t => if t = "k" then Except.ok (Node.expression (Node.name "k"))
          else Except.error (EvalErr.parseError "invalid syntax"))
        (fun key _ => if key = "greet" then Option.some "Hello" else Option.none)
        (String.mk ('{' :: "k".data ++ ['}'])) [("k", Value.str "greet")]
        = (Except.ok "Hello", [("greet", [("k", Value.str "greet")])]) := by
  refine ⟨rfl, rfl, ?_⟩
  have h := (string_result_translated_once
      (fun t => if t = "k" then Except.ok (Node.expression (Node.name "k"))
        else Except.error (EvalErr.parseError "invalid syntax"))
      (fun key _ => if key = "greet" then Option.some "Hello" else Option.none)
      [("k", Value.str "greet")] "k" (Node.expression (Node.name "k")) "greet"
      rfl rfl rfl).2 (by decide) (by decide)
  rw [h]
  rfl

theorem replaceOne_eq (parse : ParseFn) (tr : Tr) (data : Ctx) (group : String) :
    replaceOne parse tr data group =
      (match safe_eval_expr parse (pyStrip group) data with
       | Except.error err =>
           ((Except.error (RenderErr.invalidExpr (pyStrip group) err) : Except RenderErr String),
             ([] : List Call))
       | Except.ok raw =>
           match raw with
           | Value.str s' =>
               (match tr s' data with
                | Option.some t => ((Except.ok t : Except RenderErr String), [(s', data)])
                | Option.none =>
                    (Except.error (RenderErr.translationKeyNotFound s'), [(s', data)]))
           | v' => (Except.ok (pyStr v'), ([] : List Call))) := rfl

theorem safe_eval_expr_eq (parse : ParseFn) (e : String) (data : Ctx) (nd : Node)
    (h : parse e = .ok nd) : safe_eval_expr parse e data = eval_node nd data := by
  show (match parse e with
        | Except.error err => (Except.error err : Except EvalErr Value)
        | Except.ok root => eval_node root data) = eval_node nd data
  rw [h]

/-- C7: a placeholder whose expression evaluates to a non-string value
substitutes the value's canonical `str` form and never invokes the
collaborator.  Stated for the `replace` callback of the single
placeholder and for the render of a one-placeholder template. -/
theorem nonstring_result_no_translate :
    ∀ (parse : ParseFn) (tr : Tr) (data : Ctx) (e : String) (nd : Node) (v : Value),
      pyStrip e = e → parse e = .ok nd → eval_node nd data = .ok v → isStrV v = false →
      replaceOne parse tr data e = (.ok (pyStr v), [])
      ∧ (e.data ≠ [] → e.data.all isNonBrace = true →
          renderAux parse tr (String.mk ('{' :: e.data ++ ['}'])) data = (.ok (pyStr v), [])) := by
  intro parse tr data e nd v hstrip hparse heval hstr
  have hse : safe_eval_expr parse e data = .ok v :=
    (safe_eval_expr_eq parse e data nd hparse).trans heval
  have hrep : replaceOne parse tr data e = (.ok (pyStr v), []) := by
    rw [replaceOne_eq, hstrip, hse]
    cases v <;> first | rfl | exact Bool.noConfusion hstr
  exact ⟨hrep, fun hne hnb => by
    rw [renderAux_single_placeholder parse tr data e hne hnb, hrep]⟩

/-- Witness for C7: rendering `{user.age}` with `user.age = 5`
substitutes `"5"` with no collaborator call, even under a collaborator
that would translate any key. -/
theorem nonstring_result_no_translate_witness :
    pyStrip "user.age" = "user.age"
    ∧ eval_node (Node.expression (Node.attributeRef (Node.name "user") "age"))
        [("user", Value.obj "<User>" (.cons "age" (.int 5) .nil))] = .ok (.int 5)
    ∧ isStrV (Value.int 5) = false
    ∧ renderAux
        (fun t => if t = "user.age"
          then Except.ok (Node.expression (Node.attributeRef (Node.name "user") "age"))
          else Except.error (EvalErr.parseError "invalid syntax"))
        (fun _ _ => Option.some "TRANSLATED")
        (String.mk ('{' :: "user.age".data ++ ['}']))
        [("user", Value.obj "<User>" (.cons "age" (.int 5) .nil))]
      = (Except.ok "5", []) := by
  refine ⟨rfl, rfl, rfl, ?_⟩
  have h := (nonstring_result_no_translate
      (fun t => if t = "user.age"
        then Except.ok (Node.expression (Node.attributeRef (Node.name "user") "age"))
        else Except.error (EvalErr.parseError "invalid syntax"))
      (fun _ _ => Option.some "TRANSLATED")
      [("user", Value.obj "<User>" (.cons "age" (.int 5) .nil))]
      "user.age" (Node.expression (Node.attributeRef (Node.name "user") "age")) (Value.int 5)
      rfl rfl rfl rfl).2 (by decide) (by decide)
  rw [h]
  rfl

/-- C10: a placeholder whose expression evaluates to a composite value
(list, tuple or mapping) substitutes the composite's string
representation and never invokes the collaborator -- the value's
contents are unrestricted, so strings nested inside the composite are
never treated as translation keys. -/
theorem composite_result_no_translate :
    ∀ (parse : ParseFn) (tr : Tr) (data : Ctx) (e : String) (nd : Node) (v : Value),
      pyStrip e = e → parse e = .ok nd → eval_node nd data = .ok v → isComposite v = true →
      replaceOne parse tr data e = (.ok (pyStr v), [])
      ∧ (e.data ≠ [] → e.data.all isNonBrace = true →
          renderAux parse tr (String.mk ('{' :: e.data ++ ['}'])) data = (.ok (pyStr v), [])) := by
  intro parse tr data e nd v hstrip hparse heval hcomp
  have hse : safe_eval_expr parse e data = .ok v :=
    (safe_eval_expr_eq parse e data nd hparse).trans heval
  have hrep : replaceOne parse tr data e = (.ok (pyStr v), []) := by
    rw [replaceOne_eq, hstrip, hse]
    cases v <;> first | rfl | exact Bool.noConfusion hcomp
  exact ⟨hrep, fun hne hnb => by
    rw [renderAux_single_placeholder parse tr data e hne hnb, hrep]⟩

/-- Witness for C10: rendering `{items}` where `items` is the list
`["x"]` substitutes the list's repr form and performs no collaborator
call, although the list contains the string `"x"` and the collaborator
would translate any key. -/
theorem composite_result_no_translate_witness :
    pyStrip "items" = "items"
    ∧ eval_node (Node.expression (Node.name "items"))
        [("items", Value.list (.cons (.str "x") .nil))]
        = .ok (Value.list (.cons (.str "x") .nil))
    ∧ isComposite (Value.list (.cons (.str "x") .nil)) = true
    ∧ renderAux
        (fun t => if t = "items" then Except.ok (Node.expression (Node.name "items"))
          else Except.error (EvalErr.parseError "invalid syntax"))
        (fun _ _ => Option.some "TRANSLATED")
        (String.mk ('{' :: "items".data ++ ['}']))
        [("items", Value.list (.cons (.str "x") .nil))]
      = (Except.ok (pyStr (Value.list (.cons (.str "x") .nil))), []) := by
  refine ⟨rfl, rfl, rfl, ?_⟩
  have h := (composite_result_no_translate
      (fun t => if t = "items" then Except.ok (Node.expression (Node.name "items"))
        else Except.error (EvalErr.parseError "invalid syntax"))
      (fun _ _ => Option.some "TRANSLATED")
      [("items", Value.list (.cons (.str "x") .nil))]
      "items" (Node.expression (Node.name "items")) (Value.list (.cons (.str "x") .nil))
      rfl rfl rfl rfl).2 (by decide) (by decide)
  rw [h]
